import Mathlib

/-!
Verification of the spectral-data engine of the `cfis-utils` repository:
the `Spectrum` entity (`src/cfis_utils/spectrum.py`), the
`TridimensionalSpectrum` spatial aggregate
(`src/cfis_utils/tridimensional_spectrum.py`) and the intensity
computation of the 3D viewer
(`src/cfis_utils/tridimensional_spectrum_viewer.py`).

The Python code is shallowly embedded: counts are `Int` lists, with the
`np.int32` cast of `set_raw_counts` modelled explicitly as a wrap into
`[-2^31, 2^31)`, Python floats
that the properties touch (calibration constants, coordinates, JSON
numbers) are modelled as `ℚ`, JSON documents as an inductive `Json`
value (the `json.dumps` / `json.loads` text layer is the identity on
such values), and Python exceptions as `Except` / error-`Option`
results that carry the post-mutation object state.
-/

/-- A parsed JSON value.  Python `dict`s preserve insertion order, so an
object is an ordered association list of string keys. -/
inductive Json where
  | null : Json
  | bool : Bool → Json
  | num : ℚ → Json
  | str : String → Json
  | arr : List Json → Json
  | obj : List (String × Json) → Json

/-- Whether the value is a JSON array (Python `isinstance(v, list)`). -/
def Json.isArr : Json → Bool
  | .arr _ => true
  | _ => false

/-- Python `dict.get(k)`: the value at the first (unique) matching key. -/
def dictGet (kvs : List (String × Json)) (k : String) : Option Json :=
  (kvs.find? (fun p => p.1 = k)).map (fun p => p.2)

/-- Python `isinstance(v, (int, float))` coercion to a number; `bool` is
an `int` subclass in Python, so booleans count as numeric. -/
def Json.asNum : Json → Option ℚ
  | .num q => some q
  | .bool b => some (if b then 1 else 0)
  | _ => none

/-- Conversion of one JSON value by `np.array(..., dtype=np.int32)`:
numbers are truncated toward zero (NumPy float-to-int cast), booleans
become 0/1, anything else raises. -/
def Json.toIntCount : Json → Option Int
  | .num q => some (q.num.tdiv q.den)
  | .bool b => some (if b then 1 else 0)
  | _ => none

/-- The distinct `ValueError` raises of the `Spectrum` class. -/
inductive SpectrumValueError where
  | noRawCountsForBackground
  | backgroundHasNoCounts
  | channelMismatch
  | noRawCountsToSave
  deriving DecidableEq

/-- The raise sites of `Spectrum.load_from_json_string` (and of the
`json.loads` call it makes). -/
inductive LoadError where
  | jsonDecodeError
  | attributeError
  | calibrationTypeError
  | metadataTypeError
  | rawCountsMissingError
  | rawCountsConversionError
  | backgroundConversionError
  deriving DecidableEq

/-- State of a `Spectrum` object: raw counts, background counts, linear
calibration `energy = a * channel + b`, and the ordered metadata
mapping.  The logger field has no bearing on the data model. -/
structure Spectrum where
  raw_counts : Option (List Int)
  background_counts : Option (List Int)
  cal_a : ℚ
  cal_b : ℚ
  metadata : List (String × Json)

/-- The state `Spectrum.__init__` produces. -/
def Spectrum.empty : Spectrum :=
  { raw_counts := none, background_counts := none,
    cal_a := 1, cal_b := 0, metadata := [] }

/-- Model of `Spectrum.clear`: every field back to its constructor default. -/
def Spectrum.clear (_ : Spectrum) : Spectrum := Spectrum.empty

/-- Model of `Spectrum.get_num_channels`. -/
def Spectrum.get_num_channels (s : Spectrum) : Nat :=
  match s.raw_counts with
  | some raw => raw.length
  | none => 0

/-- Model of `Spectrum._reset_background`: zeros matching the raw counts shape,
or `None` when no raw counts exist. -/
def Spectrum.reset_background (s : Spectrum) : Spectrum :=
  match s.raw_counts with
  | some raw => { s with background_counts := some (List.replicate raw.length 0) }
  | none => { s with background_counts := none }

/-- The int32 cast performed by `np.array(..., dtype=np.int32)` and
`astype(np.int32)`: the value is wrapped into the range
`[-2^31, 2^31)`. -/
def wrapInt32 (n : Int) : Int := (n + 2 ^ 31) % 2 ^ 32 - 2 ^ 31

/-- Model of `Spectrum.set_raw_counts`: cast the counts to int32 (the
`np.array` / `astype(np.int32)` conversion, which wraps out-of-range
values), then clamp negatives to zero (`np.maximum(0, ...)` under the
`np.any(... < 0)` guard); reset the background to zeros when none exists
or its length no longer matches. -/
def Spectrum.set_raw_counts (s : Spectrum) (counts : List Int) : Spectrum :=
  let cast := counts.map wrapInt32
  let raw := if cast.any (fun c => c < 0) then cast.map (fun c => max 0 c) else cast
  let bgMatches : Bool := match s.background_counts with
    | some b => raw.length == b.length
    | none => false
  { s with raw_counts := some raw,
           background_counts :=
             if bgMatches then s.background_counts
             else some (List.replicate raw.length 0) }

/-- Model of `Spectrum.set_calibration` (the non-numeric `TypeError` arises only
from untyped callers; the JSON loader checks numericity separately). -/
def Spectrum.set_calibration (s : Spectrum) (slope_a intercept_b : ℚ) : Spectrum :=
  { s with cal_a := slope_a, cal_b := intercept_b }

/-- Python `dict.__setitem__`: replace in place if the key exists,
append otherwise. -/
def dictSet (m : List (String × Json)) (k : String) (v : Json) : List (String × Json) :=
  if m.any (fun p => p.1 = k) then
    m.map (fun p => if p.1 = k then (k, v) else p)
  else m ++ [(k, v)]

/-- Python `dict.update`: set every pair of the argument in order. -/
def dictUpdate (m upd : List (String × Json)) : List (String × Json) :=
  upd.foldl (fun acc p => dictSet acc p.1 p.2) m

/-- Model of `Spectrum.add_metadata`: merge the argument into the metadata. -/
def Spectrum.add_metadata (s : Spectrum) (md : List (String × Json)) : Spectrum :=
  { s with metadata := dictUpdate s.metadata md }

/-- Model of `Spectrum.set_background`: copies the other spectrum's raw counts as
this spectrum's background after the guard chain (own raw counts set,
argument has counts, channel counts match).  The `astype(np.int32)` on
the copy is the identity: the argument's raw counts live in an int32
array already. -/
def Spectrum.set_background (s bg : Spectrum) : Except SpectrumValueError Spectrum :=
  match s.raw_counts with
  | none => .error .noRawCountsForBackground
  | some _ =>
    match bg.raw_counts with
    | none => .error .backgroundHasNoCounts
    | some bgc =>
      if s.get_num_channels ≠ bgc.length then .error .channelMismatch
      else .ok { s with background_counts := some bgc }

/-- Model of `Spectrum.get_counts_without_background`: `max(0, raw - background)`
elementwise; a `None` background is repaired to zeros first, a
length-mismatched background makes the call return a copy of the raw
counts (after resetting the stored background). -/
def Spectrum.get_counts_without_background (s : Spectrum) : Option (List Int) :=
  match s.raw_counts with
  | none => none
  | some raw =>
    let bg := match s.background_counts with
      | none => List.replicate raw.length 0
      | some b => b
    if raw.length ≠ bg.length then some raw
    else some (List.zipWith (fun r b => max 0 (r - b)) raw bg)

/-- Model of `Spectrum.get_data`: the `(x_axis, y_counts)` pair, channel indices
or calibrated energies against raw or background-subtracted counts. -/
def Spectrum.get_data (s : Spectrum) (useEnergy withoutBackground : Bool) :
    Option (List ℚ × List Int) :=
  match (if withoutBackground then s.get_counts_without_background else s.raw_counts) with
  | none => none
  | some y =>
    let x : List ℚ :=
      if useEnergy then (List.range y.length).map (fun i => s.cal_a * (i : ℚ) + s.cal_b)
      else (List.range y.length).map (fun i => (i : ℚ))
    some (x, y)

/-- Model of `Spectrum.get_as_json`: the JSON-serializable dictionary, keys in
source order.  The source calls `self._raw_counts.tolist()` and is only
invoked with raw counts present (`save_as_json` guards); `getD []`
stands for that guarded access. -/
def Spectrum.get_as_json (s : Spectrum) : Json :=
  .obj [("format_version", .str "1.0"),
        ("num_channels", .num (s.get_num_channels : ℚ)),
        ("calibration_a", .num s.cal_a),
        ("calibration_b", .num s.cal_b),
        ("metadata", .obj s.metadata),
        ("raw_counts", .arr ((s.raw_counts.getD []).map (fun n : Int => .num (n : ℚ)))),
        ("background_counts",
          match s.background_counts with
          | some b => .arr (b.map (fun n : Int => .num (n : ℚ)))
          | none => .null)]

/-- The `background_counts` stage of `Spectrum.load_from_json_string`:
a present list value is loaded into a fresh spectrum and installed via
`set_background`, whose `ValueError` is downgraded to a background
reset; a missing, null or non-list value resets the background. -/
def Spectrum.load_json_background (s : Spectrum) (kvs : List (String × Json)) :
    Spectrum × Option LoadError :=
  match dictGet kvs "background_counts" with
  | some (.arr bc) =>
    match bc.mapM Json.toIntCount with
    | some ints =>
      match s.set_background (Spectrum.empty.set_raw_counts ints) with
      | .ok s4 => (s4, none)
      | .error _ => (s.reset_background, none)
    | none => (s, some .backgroundConversionError)
  | _ => (s.reset_background, none)

/-- The `raw_counts` stage of `Spectrum.load_from_json_string`: the
field must be present and a list, else `ValueError`; the NumPy int32
conversion of its elements must succeed. -/
def Spectrum.load_json_raw_counts (s : Spectrum) (kvs : List (String × Json)) :
    Spectrum × Option LoadError :=
  match dictGet kvs "raw_counts" with
  | some (.arr rc) =>
    match rc.mapM Json.toIntCount with
    | some ints => (s.set_raw_counts ints).load_json_background kvs
    | none => (s, some .rawCountsConversionError)
  | _ => (s, some .rawCountsMissingError)

/-- The body of `Spectrum.load_from_json_string` on an already-decoded
object document: version check (warning only), calibration, metadata,
raw counts, background; the trailing `num_channels` comparison only
logs. -/
def Spectrum.load_json_obj (s : Spectrum) (kvs : List (String × Json)) :
    Spectrum × Option LoadError :=
  match ((dictGet kvs "calibration_a").getD (.num 1)).asNum,
        ((dictGet kvs "calibration_b").getD (.num 0)).asNum with
  | some a, some b =>
    let s1 := s.set_calibration a b
    match (dictGet kvs "metadata").getD (.obj []) with
    | .obj mkvs => (s1.add_metadata mkvs).load_json_raw_counts kvs
    | _ => (s1, some .metadataTypeError)
  | _, _ => (s, some .calibrationTypeError)

/-- Model of `Spectrum.load_from_json_string`: clear the object, then decode.
`none` input models a string `json.loads` rejects; a decoded non-object
document fails at the first `data.get` attribute access.  The returned
state is the object as the method leaves it, error or not. -/
def Spectrum.load_from_json_string (s : Spectrum) (input : Option Json) :
    Spectrum × Option LoadError :=
  let s0 := s.clear
  match input with
  | none => (s0, some .jsonDecodeError)
  | some (.obj kvs) => s0.load_json_obj kvs
  | some _ => (s0, some .attributeError)

/-- Model of `Spectrum.save_as_json` up to the file system: the guard on unset
raw counts, then the document `json.dump` writes. -/
def Spectrum.save_as_json (s : Spectrum) : Except SpectrumValueError Json :=
  match s.raw_counts with
  | none => .error .noRawCountsToSave
  | some _ => .ok s.get_as_json

/-- Model of `Spectrum.save_as_mca` up to the file system: the guard on unset
raw counts, then the emitted lines. -/
def Spectrum.save_as_mca (s : Spectrum) : Except SpectrumValueError (List String) :=
  match s.raw_counts with
  | none => .error .noRawCountsToSave
  | some raw => .ok ("<<DATA>>" :: raw.map toString ++ ["<<END>>"])

/-- The line scan of `Spectrum.load_from_mca`: `<<DATA>>` opens the data
section, any other tag closes it (`<<END>>` stops the scan), integer
lines inside the section accumulate, unparsable lines are skipped.
`String.toInt?` stands for Python `int(line)` on a stripped line. -/
def mcaScan : List String → Bool → List Int → List Int
  | [], _, acc => acc
  | l :: rest, inData, acc =>
    let l := l.trim
    if l = "" then mcaScan rest inData acc
    else if l.startsWith "<<DATA>>" then mcaScan rest true acc
    else if l.startsWith "<<" then
      if l.startsWith "<<END>>" then acc
      else mcaScan rest false acc
    else if inData then
      match l.toInt? with
      | some n => mcaScan rest inData (acc ++ [n])
      | none => mcaScan rest inData acc
    else mcaScan rest inData acc

/-- Model of `Spectrum.load_from_mca` on the lines of an existing file: parsed
counts go through `set_raw_counts`; with no valid data points the raw
counts become the empty array and the background is reset. -/
def Spectrum.load_from_mca (s : Spectrum) (lines : List String) : Spectrum :=
  let cs := mcaScan lines false []
  if cs ≠ [] then s.set_raw_counts cs
  else ({ s with raw_counts := some [] } : Spectrum).reset_background

/-- Digits of a decimal literal folded to a natural number; `none` on a
non-digit character. -/
def digitsVal (cs : List Char) : Option Nat :=
  cs.foldlM (fun a c => if c.isDigit then some (a * 10 + (c.toNat - 48)) else none) 0

/-- An unsigned decimal float literal as Python `float` reads the
coordinate components `str(tuple)` wrote (`"1.0"`, `".5"`, `"2"`).
Scientific notation and the inf/nan words are outside the model; the
aggregate writer never produces them for the coordinates exercised
here. -/
def parseUnsignedFloat (s : String) : Option ℚ :=
  match s.splitOn "." with
  | [ip] => (digitsVal ip.toList).bind (fun n : Nat => if ip.isEmpty then none else some (n : ℚ))
  | [ip, fp] =>
    if ip.isEmpty && fp.isEmpty then none
    else
      (digitsVal ip.toList).bind fun n =>
        (digitsVal fp.toList).map fun f =>
          (n : ℚ) + (f : ℚ) / ((10 : ℚ) ^ fp.length)
  | _ => none

/-- Python `float(s)`: strip whitespace, optional sign, decimal body. -/
def parseFloat (s : String) : Option ℚ :=
  let s := s.trim
  if s.startsWith "-" then (parseUnsignedFloat (s.drop 1)).map (fun q => -q)
  else if s.startsWith "+" then parseUnsignedFloat (s.drop 1)
  else parseUnsignedFloat s

/-- Coordinate-key decoding of `TridimensionalSpectrum.load_from_json`:
strip every parenthesis character, split on commas, convert each part
with `float`.  The stored keys are 3-tuples, so a key that does not
yield exactly three floats is a decode failure. -/
def parseCoords3 (key : String) : Option (ℚ × ℚ × ℚ) :=
  match (((key.replace "(" "").replace ")" "").splitOn ",").mapM parseFloat with
  | some [x, y, z] => some (x, y, z)
  | _ => none

/-- State of a `TridimensionalSpectrum`: the insertion-ordered mapping
from a coordinate triple to the list of spectra recorded there. -/
structure TridimensionalSpectrum where
  spectra : List ((ℚ × ℚ × ℚ) × List Spectrum)

/-- Model of `TridimensionalSpectrum.__init__` / `clear`. -/
def TridimensionalSpectrum.emptyColl : TridimensionalSpectrum := ⟨[]⟩

/-- Model of `TridimensionalSpectrum.clear`. -/
def TridimensionalSpectrum.clear (_ : TridimensionalSpectrum) : TridimensionalSpectrum :=
  TridimensionalSpectrum.emptyColl

/-- Model of `TridimensionalSpectrum.add_new_spectrum`: append to the list at the
coordinate, creating a fresh entry at the end on a new coordinate. -/
def TridimensionalSpectrum.add_new_spectrum (t : TridimensionalSpectrum)
    (sp : Spectrum) (coords : ℚ × ℚ × ℚ) : TridimensionalSpectrum :=
  if t.spectra.any (fun p => p.1 = coords) then
    ⟨t.spectra.map (fun p => if p.1 = coords then (p.1, p.2 ++ [sp]) else p)⟩
  else ⟨t.spectra ++ [(coords, [sp])]⟩

/-- Model of `TridimensionalSpectrum.get_spectra` (a shallow dict copy). -/
def TridimensionalSpectrum.get_spectra (t : TridimensionalSpectrum) :
    List ((ℚ × ℚ × ℚ) × List Spectrum) := t.spectra

/-- Model of `TridimensionalSpectrum.get_num_spectra`. -/
def TridimensionalSpectrum.get_num_spectra (t : TridimensionalSpectrum) : Nat :=
  (t.spectra.map (fun p => p.2.length)).sum

/-- The per-axis min/max dictionary `get_spectra_range` returns. -/
structure SpectraRange where
  x_min : ℚ
  x_max : ℚ
  y_min : ℚ
  y_max : ℚ
  z_min : ℚ
  z_max : ℚ
  deriving DecidableEq

/-- Model of `TridimensionalSpectrum.get_spectra_range`: `np.min`/`np.max` over
axis 0 of the stacked coordinate keys; on an empty collection the NumPy
reduction of a zero-size array raises `ValueError`, modelled as
`none`. -/
def TridimensionalSpectrum.get_spectra_range (t : TridimensionalSpectrum) :
    Option SpectraRange :=
  match t.spectra.map (fun p => p.1) with
  | [] => none
  | c :: cs => some
    { x_min := cs.foldl (fun m p => min m p.1) c.1
      x_max := cs.foldl (fun m p => max m p.1) c.1
      y_min := cs.foldl (fun m p => min m p.2.1) c.2.1
      y_max := cs.foldl (fun m p => max m p.2.1) c.2.1
      z_min := cs.foldl (fun m p => min m p.2.2) c.2.2
      z_max := cs.foldl (fun m p => max m p.2.2) c.2.2 }

/-- The failure modes of `TridimensionalSpectrum.load_from_json`. -/
inductive AggError where
  | documentShapeError
  | coordDecodeError
  | spectrumError (e : LoadError)
  deriving DecidableEq

/-- The list branch of the per-key decode: load each document of the
list into a fresh `Spectrum` and append it at the coordinate; the first
failing document aborts with the spectra added so far kept. -/
def loadDocsAt (t : TridimensionalSpectrum) (coords : ℚ × ℚ × ℚ) :
    List Json → TridimensionalSpectrum × Option AggError
  | [] => (t, none)
  | d :: ds =>
    match Spectrum.empty.load_from_json_string (some d) with
    | (sp, none) => loadDocsAt (t.add_new_spectrum sp coords) coords ds
    | (_, some e) => (t, some (.spectrumError e))

/-- One `(key, value)` entry of the aggregate's `spectra` object: decode
the coordinate from the key, then branch on the value — a JSON list is
the current list-of-documents schema, anything else is the old
single-document schema loaded once. -/
def processEntry (t : TridimensionalSpectrum) (e : String × Json) :
    TridimensionalSpectrum × Option AggError :=
  match parseCoords3 e.1 with
  | none => (t, some .coordDecodeError)
  | some coords =>
    match e.2 with
    | .arr docs => loadDocsAt t coords docs
    | d =>
      match Spectrum.empty.load_from_json_string (some d) with
      | (sp, none) => (t.add_new_spectrum sp coords, none)
      | (_, some err) => (t, some (.spectrumError err))

/-- The entry loop of `TridimensionalSpectrum.load_from_json`: process
the entries in order, stopping at the first failure. -/
def loadEntries (t : TridimensionalSpectrum) :
    List (String × Json) → TridimensionalSpectrum × Option AggError
  | [] => (t, none)
  | e :: rest =>
    match processEntry t e with
    | (t1, none) => loadEntries t1 rest
    | (t1, some err) => (t1, some err)

/-- Model of `TridimensionalSpectrum.load_from_json` on a decoded document:
clear the collection, require a `spectra` object, then run the entry
loop. -/
def TridimensionalSpectrum.load_from_json (t : TridimensionalSpectrum) (doc : Json) :
    TridimensionalSpectrum × Option AggError :=
  let t0 := t.clear
  match doc with
  | .obj kvs =>
    match dictGet kvs "spectra" with
    | some (.obj entries) => loadEntries t0 entries
    | _ => (t0, some .documentShapeError)
  | _ => (t0, some .documentShapeError)

/-- A Python object as the viewer's intensity loop sees the dict values
of `get_spectra()`: either a single `Spectrum` or a list. -/
inductive PyObj where
  | spectrum (s : Spectrum)
  | list (l : List PyObj)

/-- The `spectrum.get_data(...)` attribute call of the viewer loop: only
a `Spectrum` instance has the method; on a list the attribute lookup
raises `AttributeError`, modelled as the error case. -/
def PyObj.callGetData (v : PyObj) (useEnergy withoutBackground : Bool) :
    Except Unit (Option (List ℚ × List Int)) :=
  match v with
  | .spectrum s => .ok (s.get_data useEnergy withoutBackground)
  | .list _ => .error ()

/-- The dict `TridimensionalSpectrum.get_spectra` hands the viewer:
every value is the Python list of spectra stored at the coordinate. -/
def TridimensionalSpectrum.get_spectra_py (t : TridimensionalSpectrum) :
    List ((ℚ × ℚ × ℚ) × PyObj) :=
  t.get_spectra.map (fun p => (p.1, PyObj.list (p.2.map PyObj.spectrum)))

/-- The ROI mask and sum of `calculate_intensities`:
`np.sum(y_counts[(x_axis >= range_min) & (x_axis <= range_max)])`,
both bounds inclusive. -/
def roiSum (x : List ℚ) (y : List Int) (rangeMin rangeMax : ℚ) : Int :=
  ((x.zip y).filter (fun p => decide (rangeMin ≤ p.1) && decide (p.1 ≤ rangeMax))).foldl
    (fun a p => a + p.2) 0

/-- The loop body of `calculate_intensities` over the dict items: each
successful `get_data` adds one `coords -> intensity` entry; a `None`
result skips the entry; any exception aborts the loop, and the handler
leaves the entries written so far in `intensity_data`. -/
def calcIntensityLoop (useEnergy subtractBg : Bool) (rangeMin rangeMax : ℚ)
    (acc : List ((ℚ × ℚ × ℚ) × Int)) :
    List ((ℚ × ℚ × ℚ) × PyObj) → List ((ℚ × ℚ × ℚ) × Int)
  | [] => acc
  | (c, v) :: rest =>
    match v.callGetData useEnergy subtractBg with
    | .error _ => acc
    | .ok none => calcIntensityLoop useEnergy subtractBg rangeMin rangeMax acc rest
    | .ok (some (xs, ys)) =>
      calcIntensityLoop useEnergy subtractBg rangeMin rangeMax
        (acc ++ [(c, roiSum xs ys rangeMin rangeMax)]) rest

/-- Model of `TridimensionalSpectrumViewer.calculate_intensities`: clear the
cached `intensity_data`, then run the loop over
`tridimensional_spectrum.get_spectra().items()`. -/
def calculate_intensities (t : TridimensionalSpectrum)
    (useEnergy subtractBg : Bool) (rangeMin rangeMax : ℚ) :
    List ((ℚ × ℚ × ℚ) × Int) :=
  calcIntensityLoop useEnergy subtractBg rangeMin rangeMax [] t.get_spectra_py

lemma any_neg_eq_false {l : List Int} (h : ∀ x ∈ l, 0 ≤ x) :
    (l.any fun c => decide (c < 0)) = false := by
  simp only [List.any_eq_false, decide_eq_true_eq]
  intro x hx
  exact not_lt.mpr (h x hx)

lemma map_max_zero_of_nonneg {l : List Int} (h : ∀ x ∈ l, 0 ≤ x) :
    (l.map fun c => max 0 c) = l := by
  induction l with
  | nil => rfl
  | cons a l ih =>
    simp only [List.map_cons, List.cons.injEq]
    exact ⟨max_eq_right (h a (List.mem_cons_self a l)),
           ih fun x hx => h x (List.mem_cons_of_mem a hx)⟩

lemma mem_zipWith_sub_nonneg {as bs : List Int} {x : Int}
    (hx : x ∈ List.zipWith (fun r b => max 0 (r - b)) as bs) : 0 ≤ x := by
  induction as generalizing bs with
  | nil => simp at hx
  | cons a as ih =>
    cases bs with
    | nil => simp at hx
    | cons b bs =>
      simp only [List.zipWith_cons_cons, List.mem_cons] at hx
      rcases hx with h | h
      · rw [h]; exact le_max_left 0 _
      · exact ih h

lemma zipWith_sub_all_zero {as bs : List Int} (hz : ∀ x ∈ bs, x = 0)
    (hl : as.length = bs.length) :
    List.zipWith (fun r b => max 0 (r - b)) as bs = as.map fun r => max 0 r := by
  induction as generalizing bs with
  | nil => cases bs <;> simp at hl ⊢
  | cons a as ih =>
    cases bs with
    | nil => simp at hl
    | cons b bs =>
      simp only [List.zipWith_cons_cons, List.map_cons, List.cons.injEq]
      refine ⟨?_, ih (fun x hx => hz x (List.mem_cons_of_mem b hx)) (by simpa using hl)⟩
      rw [hz b (List.mem_cons_self b bs), sub_zero]

lemma wrapInt32_eq_self {c : Int} (h1 : -2 ^ 31 ≤ c) (h2 : c < 2 ^ 31) :
    wrapInt32 c = c := by
  unfold wrapInt32
  rw [Int.emod_eq_of_lt (by linarith) (by norm_num; linarith)]
  ring

lemma map_wrapInt32_eq_self {l : List Int}
    (h : ∀ x ∈ l, -2 ^ 31 ≤ x ∧ x < 2 ^ 31) : l.map wrapInt32 = l := by
  induction l with
  | nil => rfl
  | cons a l ih =>
    simp only [List.map_cons, List.cons.injEq]
    exact ⟨wrapInt32_eq_self (h a (List.mem_cons_self a l)).1
        (h a (List.mem_cons_self a l)).2,
      ih fun x hx => h x (List.mem_cons_of_mem a hx)⟩

lemma ite_bg_cases (c : Bool) (bg : Option (List Int)) (n : Nat) :
    (if c then bg else some (List.replicate n 0)) = bg ∨
    ∃ m, (if c then bg else some (List.replicate n 0)) =
      some (List.replicate m 0) := by
  cases c
  · exact Or.inr ⟨n, rfl⟩
  · exact Or.inl rfl

lemma set_raw_counts_background_cases (s : Spectrum) (counts : List Int) :
    (s.set_raw_counts counts).background_counts = s.background_counts ∨
    ∃ n, (s.set_raw_counts counts).background_counts =
      some (List.replicate n 0) := by
  unfold Spectrum.set_raw_counts
  dsimp only
  exact ite_bg_cases _ _ _

/-- C4 fails as stated: the source casts to int32 before clamping, so
the out-of-range input `[2^31]` wraps to `[-2^31]` and is stored as
`[0]`, not as the claimed elementwise maximum `max(0, 2^31) = 2^31`. -/
theorem spectrum_set_raw_counts_wrap_counterexample :
    (Spectrum.empty.set_raw_counts [2 ^ 31]).raw_counts = some [0] ∧
    (Spectrum.empty.set_raw_counts [2 ^ 31]).raw_counts ≠
      some (([2 ^ 31] : List Int).map fun c => max 0 c) := by
  exact ⟨by decide, by decide⟩

/-- C4 as amended: `set_raw_counts` stores the elementwise maximum of
zero and the int32-wrapped input, so no count in the object is negative
afterwards (the preserved background stays non-negative whenever it was,
per invariant I2); for inputs whose elements already lie in the int32
range — such as the spec scenario `[5, -2, 10]` — the stored counts are
exactly the elementwise maximum of the input and zero. -/
theorem spectrum_set_raw_counts_clamps (s : Spectrum) (counts : List Int)
    (hbg : ∀ b, s.background_counts = some b → ∀ x ∈ b, 0 ≤ x) :
    (s.set_raw_counts counts).raw_counts =
      some (counts.map fun c => max 0 (wrapInt32 c)) ∧
    (∀ l, (s.set_raw_counts counts).raw_counts = some l → ∀ x ∈ l, 0 ≤ x) ∧
    (∀ l, (s.set_raw_counts counts).background_counts = some l → ∀ x ∈ l, 0 ≤ x) ∧
    ((∀ x ∈ counts, -2 ^ 31 ≤ x ∧ x < 2 ^ 31) →
      (s.set_raw_counts counts).raw_counts = some (counts.map fun c => max 0 c)) := by
  have hcomp : (counts.map fun c => max 0 (wrapInt32 c)) =
      (counts.map wrapInt32).map fun c => max 0 c := by
    rw [List.map_map]; rfl
  have h1 : (s.set_raw_counts counts).raw_counts =
      some (counts.map fun c => max 0 (wrapInt32 c)) := by
    rw [hcomp]
    unfold Spectrum.set_raw_counts
    by_cases hany : ((counts.map wrapInt32).any fun c => decide (c < 0)) = true
    · simp only [hany, if_true]
    · have hpos : ∀ x ∈ counts.map wrapInt32, 0 ≤ x := by
        simp only [Bool.not_eq_true, List.any_eq_false, decide_eq_true_eq] at hany
        exact fun x hx => not_lt.mp (hany x hx)
      simp only [Bool.not_eq_true] at hany
      simp only [hany, if_false, Bool.false_eq_true]
      rw [map_max_zero_of_nonneg hpos]
  refine ⟨h1, ?_, ?_, ?_⟩
  · rintro l hl x hx
    rw [h1] at hl
    simp only [Option.some.injEq] at hl
    subst hl
    rcases List.mem_map.mp hx with ⟨c, _, rfl⟩
    exact le_max_left 0 _
  · intro l hl x hx
    rcases set_raw_counts_background_cases s counts with hc | ⟨n, hc⟩
    · rw [hc] at hl
      exact hbg l hl x hx
    · rw [hc] at hl
      simp only [Option.some.injEq] at hl
      subst hl
      rw [List.eq_of_mem_replicate hx]
  · intro hrange
    rw [h1]
    congr 1
    exact List.map_congr_left fun c hc => by
      rw [wrapInt32_eq_self (hrange c hc).1 (hrange c hc).2]

/-- Witness for C4 at the spec scenario: the in-range input
`[5, -2, 10]` on a fresh spectrum is stored as `[5, 0, 10]`. -/
theorem spectrum_set_raw_counts_clamps_witness :
    (Spectrum.empty.set_raw_counts [5, -2, 10]).raw_counts = some [5, 0, 10] := by
  have h := spectrum_set_raw_counts_clamps Spectrum.empty [5, -2, 10]
    (by intro b hb; simp [Spectrum.empty] at hb)
  rw [h.2.2.2 (by decide)]
  decide

/-- C5: with raw counts set (all non-negative, invariant I2),
`get_counts_without_background` returns an elementwise non-negative
array, and when the stored background is all zeros (or absent, hence
repaired to zeros) the result is exactly the raw counts. -/
theorem spectrum_counts_without_background_nonneg (s : Spectrum) (raw : List Int)
    (h : s.raw_counts = some raw) (hnn : ∀ x ∈ raw, 0 ≤ x) :
    ∃ out, s.get_counts_without_background = some out ∧ (∀ x ∈ out, 0 ≤ x) ∧
      ((∀ b, s.background_counts = some b → ∀ x ∈ b, x = 0) → out = raw) := by
  unfold Spectrum.get_counts_without_background
  rw [h]
  cases hb : s.background_counts with
  | none =>
    refine ⟨List.zipWith (fun r b => max 0 (r - b)) raw (List.replicate raw.length 0),
      by simp, ?_, ?_⟩
    · intro x hx
      exact mem_zipWith_sub_nonneg hx
    · intro _
      rw [zipWith_sub_all_zero (fun x hx => List.eq_of_mem_replicate hx)
        (List.length_replicate raw.length 0).symm]
      exact map_max_zero_of_nonneg hnn
  | some b =>
    by_cases hlen : raw.length = b.length
    · simp only [hlen, ne_eq, not_true_eq_false, if_false]
      refine ⟨_, rfl, ?_, ?_⟩
      · intro x hx
        exact mem_zipWith_sub_nonneg hx
      · intro hz
        rw [zipWith_sub_all_zero (hz b rfl) hlen]
        exact map_max_zero_of_nonneg hnn
    · simp only [ne_eq, hlen, not_false_eq_true, if_true]
      exact ⟨raw, rfl, hnn, fun _ => rfl⟩

/-- Witness for C5 on a concrete two-channel spectrum with a zero
background. -/
theorem spectrum_counts_without_background_nonneg_witness :
    ∃ out, (Spectrum.empty.set_raw_counts [3, 1]).get_counts_without_background
        = some out ∧ (∀ x ∈ out, 0 ≤ x) ∧
      ((∀ b, (Spectrum.empty.set_raw_counts [3, 1]).background_counts = some b →
          ∀ x ∈ b, x = 0) → out = [3, 1]) :=
  spectrum_counts_without_background_nonneg (Spectrum.empty.set_raw_counts [3, 1])
    [3, 1] rfl (by decide)

/-- C7: `load_from_mca` never touches the calibration constants or the
metadata mapping; whatever the file contains, only the raw counts and
the re-derived background change. -/
theorem spectrum_load_from_mca_frame (s : Spectrum) (lines : List String) :
    (s.load_from_mca lines).cal_a = s.cal_a ∧
    (s.load_from_mca lines).cal_b = s.cal_b ∧
    (s.load_from_mca lines).metadata = s.metadata := by
  unfold Spectrum.load_from_mca
  dsimp only
  split
  · unfold Spectrum.set_raw_counts
    exact ⟨rfl, rfl, rfl⟩
  · unfold Spectrum.reset_background
    exact ⟨rfl, rfl, rfl⟩

/-- C8: `set_background` raises `ValueError` whenever the receiving
spectrum has no raw counts, regardless of the background argument. -/
theorem spectrum_set_background_requires_raw_counts (s bg : Spectrum)
    (h : s.raw_counts = none) :
    s.set_background bg = .error .noRawCountsForBackground := by
  unfold Spectrum.set_background
  rw [h]

/-- Witness for C8: a fresh spectrum rejects any background, even a
populated one. -/
theorem spectrum_set_background_requires_raw_counts_witness :
    Spectrum.empty.set_background (Spectrum.empty.set_raw_counts [1, 2]) =
      .error .noRawCountsForBackground :=
  spectrum_set_background_requires_raw_counts Spectrum.empty
    (Spectrum.empty.set_raw_counts [1, 2]) rfl

/-- C10: with raw counts never set, both persistence entry points raise
`ValueError` before touching any file. -/
theorem spectrum_save_requires_raw_counts (s : Spectrum) (h : s.raw_counts = none) :
    s.save_as_mca = .error .noRawCountsToSave ∧
    s.save_as_json = .error .noRawCountsToSave := by
  unfold Spectrum.save_as_mca Spectrum.save_as_json
  rw [h]
  exact ⟨rfl, rfl⟩

/-- Witness for C10 on the freshly constructed spectrum. -/
theorem spectrum_save_requires_raw_counts_witness :
    Spectrum.empty.save_as_mca = .error .noRawCountsToSave ∧
    Spectrum.empty.save_as_json = .error .noRawCountsToSave :=
  spectrum_save_requires_raw_counts Spectrum.empty rfl

/-- C9: `get_spectra_range` yields the per-axis minimum and maximum of
the stored coordinates when at least one position exists, and raises
(the NumPy reduction of an empty array) when the collection is empty. -/
theorem trid_get_spectra_range_spec (t : TridimensionalSpectrum) :
    (t.spectra = [] → t.get_spectra_range = none) ∧
    (t.spectra ≠ [] → ∃ r, t.get_spectra_range = some r ∧
      (t.spectra.map fun p => p.1.1).min? = some r.x_min ∧
      (t.spectra.map fun p => p.1.1).max? = some r.x_max ∧
      (t.spectra.map fun p => p.1.2.1).min? = some r.y_min ∧
      (t.spectra.map fun p => p.1.2.1).max? = some r.y_max ∧
      (t.spectra.map fun p => p.1.2.2).min? = some r.z_min ∧
      (t.spectra.map fun p => p.1.2.2).max? = some r.z_max) := by
  unfold TridimensionalSpectrum.get_spectra_range
  cases ht : t.spectra with
  | nil => exact ⟨fun _ => rfl, fun hne => absurd rfl hne⟩
  | cons c cs =>
    refine ⟨fun hemp => by simp at hemp, fun _ => ⟨_, rfl, ?_, ?_, ?_, ?_, ?_, ?_⟩⟩ <;>
      simp only [List.map_cons, List.min?_cons', List.max?_cons', List.foldl_map]

/-- Witness for C9: the empty collection fails, a two-position
collection reports the componentwise extrema. -/
theorem trid_get_spectra_range_spec_witness :
    TridimensionalSpectrum.emptyColl.get_spectra_range = none ∧
    ∃ r, (TridimensionalSpectrum.mk
        [((1, 5, 3), []), ((2, 4, 0), [])]).get_spectra_range = some r ∧
      r.x_min = 1 ∧ r.x_max = 2 ∧ r.y_min = 4 ∧ r.y_max = 5 ∧
      r.z_min = 0 ∧ r.z_max = 3 := by
  constructor
  · exact (trid_get_spectra_range_spec TridimensionalSpectrum.emptyColl).1 rfl
  · obtain ⟨r, hr, _⟩ := (trid_get_spectra_range_spec
      (TridimensionalSpectrum.mk [((1, 5, 3), []), ((2, 4, 0), [])])).2
      (List.cons_ne_nil _ _)
    refine ⟨r, hr, ?_⟩
    have : r = { x_min := 1, x_max := 2, y_min := 4, y_max := 5,
                 z_min := 0, z_max := 3 } := by
      rw [show (TridimensionalSpectrum.mk
          [((1, 5, 3), []), ((2, 4, 0), [])]).get_spectra_range =
          some { x_min := 1, x_max := 2, y_min := 4, y_max := 5,
                 z_min := 0, z_max := 3 } by decide] at hr
      exact (Option.some.injEq _ _).mp hr.symm
    rw [this]
    exact ⟨rfl, rfl, rfl, rfl, rfl, rfl⟩

lemma load_json_background_error_shape (s : Spectrum) (kvs : List (String × Json))
    (e : LoadError) (h : (s.load_json_background kvs).2 = some e) :
    e = .backgroundConversionError := by
  unfold Spectrum.load_json_background at h
  split at h
  · split at h
    · split at h <;> simp_all
    · simp_all
  · simp at h

lemma load_json_raw_counts_error_shape (s : Spectrum) (kvs : List (String × Json))
    (e : LoadError) (h : (s.load_json_raw_counts kvs).2 = some e)
    (he : e = .jsonDecodeError ∨ e = .rawCountsMissingError) :
    (s.load_json_raw_counts kvs).1 = s := by
  unfold Spectrum.load_json_raw_counts at h ⊢
  split at h
  · split at h
    · have := load_json_background_error_shape _ _ _ h
      cases he <;> simp_all
    · simp only [Option.some.injEq] at h
      cases he <;> simp_all
  · rfl

lemma load_json_obj_failure_frame (s : Spectrum) (kvs : List (String × Json))
    (e : LoadError) (h : (s.load_json_obj kvs).2 = some e)
    (he : e = .jsonDecodeError ∨ e = .rawCountsMissingError) :
    (s.load_json_obj kvs).1.raw_counts = s.raw_counts ∧
    (s.load_json_obj kvs).1.background_counts = s.background_counts := by
  unfold Spectrum.load_json_obj at h ⊢
  split at h
  · rename_i a b heq
    split at h
    · rename_i mkvs hmeta
      rw [load_json_raw_counts_error_shape _ _ _ h he]
      exact ⟨rfl, rfl⟩
    · simp only [Option.some.injEq] at h
      cases he <;> simp_all
  · simp only [Option.some.injEq] at h
    cases he <;> simp_all

/-- C1 counterexample: a well-formed document without `raw_counts` but
with a calibration value and metadata makes `load_from_json_string`
raise the claimed `ValueError`, yet the object afterwards carries the
failed document's calibration and metadata — not the empty defaults. -/
def malformedRawDoc : Json :=
  .obj [("calibration_a", .num (5 / 2)), ("metadata", .obj [("k", .num 7)])]

/-- The claim of C1 is false as stated: on `malformedRawDoc` the load
raises for a missing `raw_counts`, but the post-raise state holds the
document's calibration slope and metadata instead of the defaults. -/
theorem spectrum_load_json_not_reset_counterexample :
    (Spectrum.empty.load_from_json_string (some malformedRawDoc)).2 =
      some .rawCountsMissingError ∧
    (Spectrum.empty.load_from_json_string (some malformedRawDoc)).1.cal_a = 5 / 2 ∧
    (Spectrum.empty.load_from_json_string (some malformedRawDoc)).1.metadata =
      [("k", Json.num 7)] ∧
    (Spectrum.empty.load_from_json_string (some malformedRawDoc)).1.cal_a ≠ 1 := by
  refine ⟨rfl, rfl, rfl, ?_⟩
  intro h
  rw [show (Spectrum.empty.load_from_json_string (some malformedRawDoc)).1.cal_a
      = 5 / 2 from rfl] at h
  norm_num at h

/-- C1 as amended: when `load_from_json_string` raises for malformed
JSON or for a missing/non-list `raw_counts`, the object has no raw
counts and no background, nothing of the pre-call state survives (the
result only depends on the input document), and on malformed JSON the
state is exactly the empty default; calibration and metadata, however,
may already hold values applied from the failed document. -/
theorem spectrum_load_json_failure_state (s : Spectrum) (input : Option Json)
    (e : LoadError) (h : (s.load_from_json_string input).2 = some e)
    (he : e = .jsonDecodeError ∨ e = .rawCountsMissingError) :
    (s.load_from_json_string input).1.raw_counts = none ∧
    (s.load_from_json_string input).1.background_counts = none ∧
    s.load_from_json_string input = Spectrum.empty.load_from_json_string input ∧
    (input = none → (s.load_from_json_string input).1 = Spectrum.empty) := by
  have hmain : (s.load_from_json_string input).1.raw_counts = none ∧
      (s.load_from_json_string input).1.background_counts = none := by
    cases input with
    | none => exact ⟨rfl, rfl⟩
    | some data =>
      cases data with
      | obj kvs =>
        have h' : ((Spectrum.empty.load_json_obj kvs)).2 = some e := h
        exact ⟨(load_json_obj_failure_frame Spectrum.empty kvs e h' he).1,
               (load_json_obj_failure_frame Spectrum.empty kvs e h' he).2⟩
      | null => exact ⟨rfl, rfl⟩
      | bool b => exact ⟨rfl, rfl⟩
      | num q => exact ⟨rfl, rfl⟩
      | str v => exact ⟨rfl, rfl⟩
      | arr l => exact ⟨rfl, rfl⟩
  exact ⟨hmain.1, hmain.2, rfl, fun hn => by subst hn; rfl⟩

/-- Witness for C1's amended claim at a concrete failing input: loading
the string the parser rejects from a populated spectrum leaves the
empty-default object. -/
theorem spectrum_load_json_failure_state_witness :
    ((Spectrum.empty.set_raw_counts [7]).load_from_json_string none).1.raw_counts
      = none ∧
    ((Spectrum.empty.set_raw_counts [7]).load_from_json_string none).1.background_counts
      = none ∧
    (Spectrum.empty.set_raw_counts [7]).load_from_json_string none =
      Spectrum.empty.load_from_json_string none ∧
    (none = (none : Option Json) →
      ((Spectrum.empty.set_raw_counts [7]).load_from_json_string none).1 =
        Spectrum.empty) :=
  spectrum_load_json_failure_state (Spectrum.empty.set_raw_counts [7]) none
    .jsonDecodeError rfl (Or.inl rfl)

lemma mapM_toIntCount_intCasts (l : List Int) :
    (l.map fun n : Int => Json.num (n : ℚ)).mapM Json.toIntCount = some l := by
  induction l with
  | nil => rfl
  | cons n l ih =>
    simp only [List.map_cons, List.mapM_cons, ih, Json.toIntCount,
      Rat.num_intCast, Rat.den_intCast, Nat.cast_one, Int.tdiv_one]
    rfl

lemma dictSet_append_of_fresh (m : List (String × Json)) (k : String) (v : Json)
    (h : ∀ p ∈ m, p.1 ≠ k) : dictSet m k v = m ++ [(k, v)] := by
  have hany : (m.any fun p => decide (p.1 = k)) = false := by
    simp only [List.any_eq_false, decide_eq_true_eq]
    exact h
  unfold dictSet
  rw [hany]
  simp

lemma dictUpdate_append_disjoint (upd : List (String × Json)) :
    ∀ m : List (String × Json), (upd.map Prod.fst).Nodup →
      (∀ p ∈ m, p.1 ∉ upd.map Prod.fst) → dictUpdate m upd = m ++ upd := by
  induction upd with
  | nil => intro m _ _; simp [dictUpdate]
  | cons kv rest ih =>
    intro m hnd hdisj
    have hstep : dictUpdate m (kv :: rest) = dictUpdate (dictSet m kv.1 kv.2) rest := rfl
    rw [hstep, dictSet_append_of_fresh m kv.1 kv.2
      (fun p hp => fun hpk => hdisj p hp (by rw [hpk]; simp))]
    rw [ih (m ++ [kv]) (by simpa using hnd.of_cons) ?_]
    · simp
    · intro p hp
      rcases List.mem_append.mp hp with hp | hp
      · intro hmem
        exact hdisj p hp (by simp [hmem])
      · simp only [List.mem_singleton] at hp
        subst hp
        simp only [List.map_cons, List.nodup_cons] at hnd
        exact hnd.1

lemma dictUpdate_nil_of_nodup (md : List (String × Json))
    (hnd : (md.map Prod.fst).Nodup) : dictUpdate [] md = md := by
  have := dictUpdate_append_disjoint md [] hnd (by simp)
  simpa using this

lemma set_raw_counts_eq_of_nonneg (s : Spectrum) (l : List Int)
    (hl : ∀ x ∈ l, 0 ≤ x ∧ x < 2 ^ 31) (hbg : s.background_counts = none) :
    s.set_raw_counts l =
      { s with raw_counts := some l,
               background_counts := some (List.replicate l.length 0) } := by
  have hcast : l.map wrapInt32 = l :=
    map_wrapInt32_eq_self fun x hx =>
      ⟨le_trans (by norm_num) (hl x hx).1, (hl x hx).2⟩
  unfold Spectrum.set_raw_counts
  dsimp only
  rw [hcast, any_neg_eq_false (fun x hx => (hl x hx).1), hbg]
  rfl

/-- The document entries `get_as_json` emits for a spectrum in the
valid state of C2, spelled out for the round-trip proof. -/
def roundTripDoc (raw bg : List Int) (a b : ℚ) (md : List (String × Json)) :
    List (String × Json) :=
  [("format_version", .str "1.0"),
   ("num_channels", .num (raw.length : ℚ)),
   ("calibration_a", .num a),
   ("calibration_b", .num b),
   ("metadata", .obj md),
   ("raw_counts", .arr (raw.map fun n : Int => .num (n : ℚ))),
   ("background_counts", .arr (bg.map fun n : Int => .num (n : ℚ)))]

/-- C2: for a spectrum in a valid state (raw counts set, all counts
non-negative int32 values — which every reachable state guarantees,
since `set_raw_counts` casts and clamps — background of equal length,
metadata a JSON object with distinct keys), serializing with
`get_as_json` and loading the document into a fresh spectrum reproduces
the raw counts, the background, both calibration constants, the
metadata in order, and hence `num_channels`, with no error raised. -/
theorem spectrum_json_round_trip (raw bg : List Int) (a b : ℚ)
    (md : List (String × Json))
    (hraw : ∀ x ∈ raw, 0 ≤ x ∧ x < 2 ^ 31) (hbg : ∀ x ∈ bg, 0 ≤ x ∧ x < 2 ^ 31)
    (hlen : bg.length = raw.length) (hnd : (md.map Prod.fst).Nodup) :
    Spectrum.empty.load_from_json_string
        (some (Spectrum.get_as_json ⟨some raw, some bg, a, b, md⟩)) =
      (⟨some raw, some bg, a, b, md⟩, none) := by
  have h1 : Spectrum.empty.load_from_json_string
      (some (Spectrum.get_as_json ⟨some raw, some bg, a, b, md⟩)) =
      ((Spectrum.empty.set_calibration a b).add_metadata md).load_json_raw_counts
        (roundTripDoc raw bg a b md) := rfl
  have h2 : (Spectrum.empty.set_calibration a b).add_metadata md =
      (⟨none, none, a, b, md⟩ : Spectrum) := by
    simp only [Spectrum.set_calibration, Spectrum.add_metadata, Spectrum.empty]
    rw [dictUpdate_nil_of_nodup md hnd]
  rw [h1, h2]
  unfold Spectrum.load_json_raw_counts
  rw [show dictGet (roundTripDoc raw bg a b md) "raw_counts" =
      some (.arr (raw.map fun n : Int => .num (n : ℚ))) from rfl]
  dsimp only
  rw [mapM_toIntCount_intCasts raw]
  dsimp only
  rw [set_raw_counts_eq_of_nonneg _ raw hraw rfl]
  unfold Spectrum.load_json_background
  rw [show dictGet (roundTripDoc raw bg a b md) "background_counts" =
      some (.arr (bg.map fun n : Int => .num (n : ℚ))) from rfl]
  dsimp only
  rw [mapM_toIntCount_intCasts bg]
  dsimp only
  rw [set_raw_counts_eq_of_nonneg Spectrum.empty bg hbg rfl]
  unfold Spectrum.set_background
  dsimp only [Spectrum.get_num_channels]
  rw [if_neg (fun hne => hne hlen.symm)]

/-- Witness for C2 on a concrete valid spectrum. -/
theorem spectrum_json_round_trip_witness :
    Spectrum.empty.load_from_json_string
        (some (Spectrum.get_as_json
          ⟨some [5, 0, 10], some [1, 0, 2], 1 / 2, 10, [("k", Json.str "v")]⟩)) =
      (⟨some [5, 0, 10], some [1, 0, 2], 1 / 2, 10, [("k", Json.str "v")]⟩, none) :=
  spectrum_json_round_trip [5, 0, 10] [1, 0, 2] (1 / 2) 10 [("k", Json.str "v")]
    (by decide) (by decide) (by decide) (by decide)

lemma processEntry_single_doc (t : TridimensionalSpectrum) (k : String) (d : Json)
    (h : d.isArr = false) :
    processEntry t (k, d) = processEntry t (k, Json.arr [d]) := by
  unfold processEntry
  dsimp only
  cases hpc : parseCoords3 k with
  | none => rfl
  | some coords =>
    dsimp only
    cases d
    case arr l => simp [Json.isArr] at h
    all_goals (unfold loadDocsAt; split <;>
      first
      | rfl
      | (rename_i heq2; exact absurd heq2 (by simp)))

lemma loadEntries_congr_middle (e1 e2 : String × Json)
    (hee : ∀ t, processEntry t e1 = processEntry t e2) :
    ∀ (pre : List (String × Json)) (t : TridimensionalSpectrum)
      (post : List (String × Json)),
      loadEntries t (pre ++ e1 :: post) = loadEntries t (pre ++ e2 :: post) := by
  intro pre
  induction pre with
  | nil =>
    intro t post
    show loadEntries t (e1 :: post) = loadEntries t (e2 :: post)
    unfold loadEntries
    rw [hee t]
  | cons p pre ih =>
    intro t post
    show loadEntries t (p :: (pre ++ e1 :: post)) =
         loadEntries t (p :: (pre ++ e2 :: post))
    unfold loadEntries
    cases processEntry t p with
    | mk t1 err =>
      cases err with
      | none => exact ih t1 post
      | some e => rfl

/-- The aggregate document shape `TridimensionalSpectrum.save_as_json`
writes and `load_from_json` reads. -/
def aggDoc (entries : List (String × Json)) : Json :=
  .obj [("format_version", .str "1.0"), ("spectra", .obj entries)]

/-- C6: in the aggregate load, a stringified-coordinate key mapping to a
single (non-list) spectrum document yields exactly the state of the same
key mapping to the one-element list holding that document, whatever else
the document contains and whether or not the decode succeeds. -/
theorem trid_load_single_doc_equiv (t : TridimensionalSpectrum)
    (pre post : List (String × Json)) (k : String) (d : Json)
    (h : d.isArr = false) :
    t.load_from_json (aggDoc (pre ++ (k, d) :: post)) =
      t.load_from_json (aggDoc (pre ++ (k, Json.arr [d]) :: post)) := by
  show loadEntries t.clear (pre ++ (k, d) :: post) =
       loadEntries t.clear (pre ++ (k, Json.arr [d]) :: post)
  exact loadEntries_congr_middle (k, d) (k, .arr [d])
    (fun t1 => processEntry_single_doc t1 k d h) pre t.clear post

/-- Witness for C6: loading a concrete old-schema document (one spectrum
document at one coordinate key) equals loading its one-element-list
form. -/
theorem trid_load_single_doc_equiv_witness :
    TridimensionalSpectrum.emptyColl.load_from_json
        (aggDoc [("(1.0, 2.0, 3.0)",
          Json.obj [("raw_counts", Json.arr [Json.num 1, Json.num 2])])]) =
      TridimensionalSpectrum.emptyColl.load_from_json
        (aggDoc [("(1.0, 2.0, 3.0)",
          Json.arr [Json.obj [("raw_counts", Json.arr [Json.num 1, Json.num 2])]])]) :=
  trid_load_single_doc_equiv TridimensionalSpectrum.emptyColl [] [] "(1.0, 2.0, 3.0)"
    (Json.obj [("raw_counts", Json.arr [Json.num 1, Json.num 2])]) rfl

/-- A one-position aggregate holding one three-channel spectrum, the
failing input for C3. -/
def sampleSpectrum : Spectrum := Spectrum.empty.set_raw_counts [1, 2, 3]

/-- The aggregate built by adding `sampleSpectrum` at the origin. -/
def sampleAggregate : TridimensionalSpectrum :=
  TridimensionalSpectrum.emptyColl.add_new_spectrum sampleSpectrum (0, 0, 0)

/-- C3 fails on the code: `calculate_intensities` computes no intensity
at all for a populated aggregate, because the dict values of
`get_spectra()` are lists of spectra and the loop calls `get_data` on
the list (an `AttributeError` its handler swallows), while the ROI sum
the claim specifies for the stored spectrum over the full channel range
is 6, the plain sum of its raw counts. -/
theorem viewer_roi_intensity_code_bug :
    calculate_intensities sampleAggregate false false 0 2 = [] ∧
    sampleAggregate.get_num_spectra = 1 ∧
    (sampleSpectrum.get_data false false).map
      (fun dat => roiSum dat.1 dat.2 0 2) = some 6 := by
  refine ⟨rfl, rfl, by decide⟩
